import Mathlib

/-!
A shallow embedding of the `TreasureHunt` Solidity contract (the Hunt Ledger),
of the `DistanceCheck` template of `circuits/treasure_claim.circom`, and of the
GPS helpers in `utils/gps.js`, together with theorems settling the claims about
them.

Modelling conventions:
* `uint256` values are modelled as `Nat`.  Solidity 0.8 checked arithmetic
  reverts on overflow; every quantity handled by the contract (timestamps,
  wei amounts bounded by the ether supply, durations capped at 90 days) stays
  far below `2^256`, so overflow never fires on any input the chain can
  produce and is not modelled.
* Solidity mappings yield a zero-initialised record for absent keys; the state
  therefore stores total functions whose defaults are the all-zero records
  (note the zero `HuntStatus` is `Active`).
* Addresses (`msg.sender`, `hunt.hider`, `claim.claimer`) are modelled as
  `Nat`; the zero address is `0`.
* `require(cond, msg)` becomes an early `Except.error msg`; a reverted call
  leaves the caller's state untouched, which the trace semantics `step`
  realises by keeping the pre-state on `.error`.
* The external groth16 verifier is an oracle parameter
  `verify : Nat → Nat → Bool` applied to the (opaque) proof datum and the
  public signal `claimCommitment`, exactly as `claimTreasure` calls
  `verifier.verifyProof(_pA, _pB, _pC, [_claimCommitment])`.
* Outgoing `transfer` calls are modelled as a returned list of
  (recipient, amount) pairs.
-/

namespace SearchTogether

/-- Status of a hunt: Solidity `enum HuntStatus { Active, Claimed, Expired }`.
The zero value of the enum — hence the status stored for a never-registered
hunt id — is `Active`. -/
inductive HuntStatus
  | Active
  | Claimed
  | Expired
deriving DecidableEq, Repr

/-- The `Hunt` struct of the contract. -/
structure Hunt where
  hider : Nat
  locationCommitment : Nat
  initialPrize : Nat
  createdAt : Nat
  claimableAfter : Nat
  expiresAt : Nat
  hintPrice : Nat
  status : HuntStatus
deriving DecidableEq, Repr

/-- The zero-initialised `Hunt` record a Solidity mapping returns for an
absent key. -/
def Hunt.zeroed : Hunt :=
  { hider := 0, locationCommitment := 0, initialPrize := 0, createdAt := 0,
    claimableAfter := 0, expiresAt := 0, hintPrice := 0, status := .Active }

/-- The `Claim` struct of the contract. -/
structure Claim where
  claimer : Nat
  claimTime : Nat
  lastWithdrawal : Nat
  totalWithdrawn : Nat
deriving DecidableEq, Repr

/-- The zero-initialised `Claim` record. -/
def Claim.zeroed : Claim :=
  { claimer := 0, claimTime := 0, lastWithdrawal := 0, totalWithdrawn := 0 }

/-- `WITHDRAWAL_INTERVAL = 1 days`. -/
def WITHDRAWAL_INTERVAL : Nat := 86400

/-- `WITHDRAWAL_PERCENT = 50`. -/
def WITHDRAWAL_PERCENT : Nat := 50

/-- `MIN_HIDER_LOCKOUT = 0`. -/
def MIN_HIDER_LOCKOUT : Nat := 0

/-- `MAX_HUNT_DURATION = 90 days`. -/
def MAX_HUNT_DURATION : Nat := 7776000

/-- Pointwise update of a key of a mapping. -/
def upd {α : Type} (f : Nat → α) (k : Nat) (v : α) : Nat → α :=
  fun k2 => if k2 = k then v else f k2

/-- Update of one cell of a two-level mapping. -/
def upd2 {α : Type} (f : Nat → Nat → α) (k a : Nat) (v : α) : Nat → Nat → α :=
  upd f k (upd (f k) a v)

/-- The contract's storage: `huntCounter` and the five keyed collections. -/
structure LedgerState where
  huntCounter : Nat
  hunts : Nat → Hunt
  claims : Nat → Claim
  contributions : Nat → Nat → Nat
  hasPurchasedHint : Nat → Nat → Bool
  totalContributions : Nat → Nat

/-- The storage of a freshly deployed contract: everything zeroed. -/
def initState : LedgerState :=
  { huntCounter := 0, hunts := fun _ => Hunt.zeroed, claims := fun _ => Claim.zeroed,
    contributions := fun _ _ => 0, hasPurchasedHint := fun _ _ => false,
    totalContributions := fun _ => 0 }

/-- `createHunt(_locationCommitment, _lockoutPeriod, _duration, _hintPrice)`,
called by `sender` at time `now` with `msg.value = msgValue`.  On success
returns the new state and the fresh hunt id. -/
def createHunt (s : LedgerState) (sender now loc lockout duration hintPrice msgValue : Nat) :
    Except String (LedgerState × Nat) :=
  if ¬ 0 < msgValue then .error "Must deposit prize" else
  if ¬ MIN_HIDER_LOCKOUT ≤ lockout then .error "Lockout too short" else
  if ¬ duration ≤ MAX_HUNT_DURATION then .error "Duration too long" else
  if ¬ lockout < duration then .error "Duration must exceed lockout" else
  let huntId := s.huntCounter
  let h : Hunt :=
    { hider := sender, locationCommitment := loc, initialPrize := msgValue,
      createdAt := now, claimableAfter := now + lockout, expiresAt := now + duration,
      hintPrice := hintPrice, status := .Active }
  .ok ({ s with huntCounter := huntId + 1, hunts := upd s.hunts huntId h }, huntId)

/-- `purchaseHint(_huntId)` called by `sender` with `msg.value = msgValue`. -/
def purchaseHint (s : LedgerState) (sender huntId msgValue : Nat) :
    Except String LedgerState :=
  let hunt := s.hunts huntId
  if ¬ hunt.status = .Active then .error "Hunt not active" else
  if ¬ hunt.hintPrice ≤ msgValue then .error "Insufficient payment" else
  if s.hasPurchasedHint huntId sender then .error "Already purchased" else
  .ok { s with
    contributions :=
      upd2 s.contributions huntId sender (s.contributions huntId sender + msgValue),
    totalContributions :=
      upd s.totalContributions huntId (s.totalContributions huntId + msgValue),
    hasPurchasedHint := upd2 s.hasPurchasedHint huntId sender true }

/-- `claimTreasure(_huntId, _pA, _pB, _pC, _claimCommitment)` called by
`sender` at time `now`; `verify` is the external verifier contract and
`proofData` stands for the opaque proof components. -/
def claimTreasure (verify : Nat → Nat → Bool) (s : LedgerState)
    (sender now huntId proofData claimCommitment : Nat) :
    Except String LedgerState :=
  let hunt := s.hunts huntId
  if ¬ hunt.status = .Active then .error "Hunt not active" else
  if ¬ hunt.claimableAfter ≤ now then .error "Still in lockout period" else
  if ¬ now < hunt.expiresAt then .error "Hunt expired" else
  if ¬ (s.claims huntId).claimer = 0 then .error "Already claimed" else
  if ¬ verify proofData claimCommitment then .error "Invalid proof" else
  .ok { s with
    claims := upd s.claims huntId
      { claimer := sender, claimTime := now, lastWithdrawal := 0, totalWithdrawn := 0 },
    hunts := upd s.hunts huntId { hunt with status := .Claimed } }

/-- `getPotBalance(_huntId)`:
`initialPrize + totalContributions − totalWithdrawn`, clamped at zero. -/
def getPotBalance (s : LedgerState) (huntId : Nat) : Nat :=
  let totalPot := (s.hunts huntId).initialPrize + s.totalContributions huntId
  let withdrawn := (s.claims huntId).totalWithdrawn
  if withdrawn < totalPot then totalPot - withdrawn else 0

/-- `withdraw(_huntId)` called by `sender` at time `now`.  On success returns
the new state together with the outgoing transfers (recipient, amount). -/
def withdraw (s : LedgerState) (sender now huntId : Nat) :
    Except String (LedgerState × List (Nat × Nat)) :=
  let hunt := s.hunts huntId
  let claim := s.claims huntId
  if ¬ hunt.status = .Claimed then .error "Not claimed" else
  if ¬ claim.claimer = sender then .error "Not the claimer" else
  if ¬ (claim.lastWithdrawal = 0 ∨ claim.lastWithdrawal + WITHDRAWAL_INTERVAL ≤ now) then
    .error "Withdrawal too soon" else
  let balance := getPotBalance s huntId
  if ¬ 0 < balance then .error "No funds remaining" else
  let withdrawAmount0 := balance * WITHDRAWAL_PERCENT / 100
  let withdrawAmount := if withdrawAmount0 = 0 then balance else withdrawAmount0
  .ok ({ s with
          claims := upd s.claims huntId
            { claim with lastWithdrawal := now,
                         totalWithdrawn := claim.totalWithdrawn + withdrawAmount } },
       [(sender, withdrawAmount)])

/-- `expireHunt(_huntId)` called by `sender` at time `now` (permissionless:
`sender` is never inspected).  On success returns the new state and the
refund transfers. -/
def expireHunt (s : LedgerState) (sender now huntId : Nat) :
    Except String (LedgerState × List (Nat × Nat)) :=
  let hunt := s.hunts huntId
  if ¬ hunt.status = .Active then .error "Not active" else
  if ¬ hunt.expiresAt ≤ now then .error "Not expired yet" else
  let s2 := { s with hunts := upd s.hunts huntId { hunt with status := .Expired } }
  let balance := getPotBalance s2 huntId
  .ok (s2, if 0 < balance then [(hunt.hider, balance)] else [])

/-- One external transaction against the contract, with its caller and the
block timestamp it executes at. -/
inductive Op
  | create (sender now loc lockout duration hintPrice msgValue : Nat)
  | purchase (sender huntId msgValue : Nat)
  | claimOp (sender now huntId proofData claimCommitment : Nat)
  | withdrawOp (sender now huntId : Nat)
  | expireOp (sender now huntId : Nat)
deriving DecidableEq, Repr

/-- Transaction semantics: a reverted call (any `require` failure) leaves the
storage unchanged. -/
def step (verify : Nat → Nat → Bool) (s : LedgerState) (op : Op) : LedgerState :=
  match op with
  | .create sender now loc lockout duration hintPrice msgValue =>
    match createHunt s sender now loc lockout duration hintPrice msgValue with
    | .ok (s2, _) => s2
    | .error _ => s
  | .purchase sender huntId msgValue =>
    match purchaseHint s sender huntId msgValue with
    | .ok s2 => s2
    | .error _ => s
  | .claimOp sender now huntId proofData claimCommitment =>
    match claimTreasure verify s sender now huntId proofData claimCommitment with
    | .ok s2 => s2
    | .error _ => s
  | .withdrawOp sender now huntId =>
    match withdraw s sender now huntId with
    | .ok (s2, _) => s2
    | .error _ => s
  | .expireOp sender now huntId =>
    match expireHunt s sender now huntId with
    | .ok (s2, _) => s2
    | .error _ => s

/-- Execution of a list of transactions, oldest first. -/
def run (verify : Nat → Nat → Bool) (s : LedgerState) : List Op → LedgerState
  | [] => s
  | op :: tr => run verify (step verify s op) tr

/-- The states the deployed contract can ever be in: reachable from the
freshly deployed storage by transactions (the verifier may behave arbitrarily,
and differently, at every call). -/
inductive Reachable : LedgerState → Prop
  | init : Reachable initState
  | next (verify : Nat → Nat → Bool) (s : LedgerState) (op : Op) :
      Reachable s → Reachable (step verify s op)

/-- Whether a ledger call succeeded (did not revert). -/
def succeeds {α : Type} : Except String α → Bool
  | .ok _ => true
  | .error _ => false

/-! ## Distance evaluation (circuit and JS utility) -/

/-- `RADIUS_SCALED = 100` of `utils/gps.js` (about 10 metres). -/
def RADIUS_SCALED : Int := 100

/-- `RADIUS_SQUARED = RADIUS_SCALED * RADIUS_SCALED = 10000` of `utils/gps.js`. -/
def RADIUS_SQUARED : Int := RADIUS_SCALED * RADIUS_SCALED

/-- `distanceSquared(lat1, lon1, lat2, lon2)` of `utils/gps.js`: squared
planar distance of scaled integer coordinates. -/
def distanceSquared (lat1 lon1 lat2 lon2 : Int) : Int :=
  let latDiff := lat1 - lat2
  let lonDiff := lon1 - lon2
  latDiff * latDiff + lonDiff * lonDiff

/-- `isWithinRadius(lat1, lon1, lat2, lon2)` of `utils/gps.js`: accepts when
the squared distance is at most `RADIUS_SQUARED`. -/
def isWithinRadius (lat1 lon1 lat2 lon2 : Int) : Bool :=
  decide (distanceSquared lat1 lon1 lat2 lon2 ≤ RADIUS_SQUARED)

/-- The `DistanceCheck` template of `circuits/treasure_claim.circom`:
`withinRange` is the output of circomlib's `LessThan(64)` applied to
`distSquared` and `maxDistSquared`, i.e. the strict comparison
`distSquared < maxDistSquared`.  For coordinates in the documented range
(`|lat| ≤ 90e6`, `|lon| ≤ 180e6`, so `distSquared < 2^64`) the circuit's
field arithmetic agrees with the plain integer arithmetic used here. -/
def distanceCheck (myLat myLon targetLat targetLon maxDistSquared : Int) : Bool :=
  let latDiff := myLat - targetLat
  let lonDiff := myLon - targetLon
  let latDiffSquared := latDiff * latDiff
  let lonDiffSquared := lonDiff * lonDiff
  let distSquared := latDiffSquared + lonDiffSquared
  decide (distSquared < maxDistSquared)

/-! ## Invariants, views, traces (definitions) -/

/-- The always-accepting `MockVerifier` contract. -/
def vTrue : Nat → Nat → Bool := fun _ _ => true

/-- Ids at or above `huntCounter` were never registered: their hunt record is
still zeroed except that a (permissionless) `expireHunt` call may already have
flipped the zeroed record's default `Active` status to `Expired`; their claim
record is zeroed. -/
def Fresh (s : LedgerState) : Prop :=
  ∀ id, s.huntCounter ≤ id →
    (s.hunts id = Hunt.zeroed ∨ s.hunts id = { Hunt.zeroed with status := .Expired }) ∧
    s.claims id = Claim.zeroed

/-- A hunt whose status is `Active` has no claim record yet. -/
def ClaimsActiveZero (s : LedgerState) : Prop :=
  ∀ id, (s.hunts id).status = .Active → s.claims id = Claim.zeroed

/-- Withdrawals never exceed the pot: `totalWithdrawn ≤ initialPrize +
totalContributions`, per hunt. -/
def PotInv (s : LedgerState) : Prop :=
  ∀ id, (s.claims id).totalWithdrawn ≤ (s.hunts id).initialPrize + s.totalContributions id

/-- The inductive invariant of the ledger. -/
def Inv (s : LedgerState) : Prop := Fresh s ∧ ClaimsActiveZero s ∧ PotInv s

/-- Everything the ledger stores under one hunt id: the hunt record, the
claim record, the per-identity contributions and hint flags, and the
running contribution total. -/
def huntView (s : LedgerState) (id : Nat) :
    Hunt × Claim × (Nat → Nat) × (Nat → Bool) × Nat :=
  (s.hunts id, s.claims id, s.contributions id, s.hasPurchasedHint id,
   s.totalContributions id)

/-- The hunt id an operation addresses (`none` for `createHunt`, whose fresh
id is the current counter). -/
def Op.targetHunt : Op → Option Nat
  | .create _ _ _ _ _ _ _ => none
  | .purchase _ huntId _ => some huntId
  | .claimOp _ _ huntId _ _ => some huntId
  | .withdrawOp _ _ huntId => some huntId
  | .expireOp _ _ huntId => some huntId

/-- The amount a single operation adds to hunt `huntId`'s contributions when
executed from state `s`: the payment of a successful `purchaseHint` on that
hunt, otherwise nothing. -/
def purchaseAmount (s : LedgerState) (huntId : Nat) : Op → Nat
  | .purchase sender hid msgValue =>
    if hid = huntId ∧ succeeds (purchaseHint s sender hid msgValue) = true
    then msgValue else 0
  | _ => 0

/-- The sum of hunt `huntId`'s individual contributions along a trace run
from state `s`. -/
def contribSum (verify : Nat → Nat → Bool) (s : LedgerState) (huntId : Nat) :
    List Op → Nat
  | [] => 0
  | op :: tr => purchaseAmount s huntId op + contribSum verify (step verify s op) huntId tr

/-- `s` with hunt `huntId`'s stored `locationCommitment` replaced by `loc`
(used to state that `claimTreasure` never reads that field). -/
def setLoc (s : LedgerState) (huntId loc : Nat) : LedgerState :=
  { s with
      hunts := upd s.hunts huntId
        { s.hunts huntId with locationCommitment := loc } }

/-- Demonstration history: hunt 0 registered (1000 wei prize, hint price 10,
no lockout, 10-second duration) and then claimed by identity 7 at time 0
under the mock verifier. -/
def demoTrace : List Op :=
  [.create 1 0 42 0 10 10 1000, .claimOp 7 0 0 0 0]

/-- Demonstration history for contributions: hunt 0 registered (hint price
10) and a hint bought by identity 3 paying 10. -/
def c3trace : List Op :=
  [.create 1 0 42 0 100 10 1000, .purchase 3 0 10]

/-! ## Mapping-update lemmas -/

theorem upd_self {α : Type} (f : Nat → α) (k : Nat) (v : α) : upd f k v k = v := by
  simp [upd]

theorem upd_ne {α : Type} (f : Nat → α) {k k2 : Nat} (v : α) (h : k2 ≠ k) :
    upd f k v k2 = f k2 := by
  simp [upd, h]

theorem upd_upd {α : Type} (f : Nat → α) (k : Nat) (a b : α) :
    upd (upd f k a) k b = upd f k b := by
  funext x
  by_cases h : x = k <;> simp [upd, h]

/-! ## Success characterisations of the five operations -/

theorem withdraw_ok_iff (s : LedgerState) (sender now huntId : Nat)
    (s2 : LedgerState) (outs : List (Nat × Nat)) :
    withdraw s sender now huntId = .ok (s2, outs) ↔
      ((s.hunts huntId).status = .Claimed ∧
       (s.claims huntId).claimer = sender ∧
       ((s.claims huntId).lastWithdrawal = 0 ∨
         (s.claims huntId).lastWithdrawal + WITHDRAWAL_INTERVAL ≤ now) ∧
       0 < getPotBalance s huntId ∧
       s2 = { s with
               claims := upd s.claims huntId
                 { s.claims huntId with
                   lastWithdrawal := now,
                   totalWithdrawn := (s.claims huntId).totalWithdrawn +
                     (if getPotBalance s huntId * WITHDRAWAL_PERCENT / 100 = 0
                      then getPotBalance s huntId
                      else getPotBalance s huntId * WITHDRAWAL_PERCENT / 100) } } ∧
       outs = [(sender,
         if getPotBalance s huntId * WITHDRAWAL_PERCENT / 100 = 0
         then getPotBalance s huntId
         else getPotBalance s huntId * WITHDRAWAL_PERCENT / 100)]) := by
  simp only [withdraw]
  split_ifs with h1 h2 h3 h4 <;> simp_all <;> tauto

theorem createHunt_ok_iff (s : LedgerState)
    (sender now loc lockout duration hintPrice msgValue : Nat)
    (s2 : LedgerState) (newId : Nat) :
    createHunt s sender now loc lockout duration hintPrice msgValue = .ok (s2, newId) ↔
      (0 < msgValue ∧ MIN_HIDER_LOCKOUT ≤ lockout ∧ duration ≤ MAX_HUNT_DURATION ∧
       lockout < duration ∧
       s2 = { s with
               huntCounter := s.huntCounter + 1,
               hunts := upd s.hunts s.huntCounter
                 { hider := sender, locationCommitment := loc,
                   initialPrize := msgValue, createdAt := now,
                   claimableAfter := now + lockout, expiresAt := now + duration,
                   hintPrice := hintPrice, status := .Active } } ∧
       newId = s.huntCounter) := by
  simp only [createHunt]
  split_ifs <;> simp_all <;> tauto

theorem purchaseHint_ok_iff (s : LedgerState) (sender huntId msgValue : Nat)
    (s2 : LedgerState) :
    purchaseHint s sender huntId msgValue = .ok s2 ↔
      ((s.hunts huntId).status = .Active ∧
       (s.hunts huntId).hintPrice ≤ msgValue ∧
       s.hasPurchasedHint huntId sender = false ∧
       s2 = { s with
               contributions := upd2 s.contributions huntId sender
                 (s.contributions huntId sender + msgValue),
               totalContributions := upd s.totalContributions huntId
                 (s.totalContributions huntId + msgValue),
               hasPurchasedHint := upd2 s.hasPurchasedHint huntId sender true }) := by
  simp only [purchaseHint]
  split_ifs <;> simp_all <;> tauto

theorem claimTreasure_ok_iff (verify : Nat → Nat → Bool) (s : LedgerState)
    (sender now huntId proofData claimCommitment : Nat) (s2 : LedgerState) :
    claimTreasure verify s sender now huntId proofData claimCommitment = .ok s2 ↔
      ((s.hunts huntId).status = .Active ∧
       (s.hunts huntId).claimableAfter ≤ now ∧
       now < (s.hunts huntId).expiresAt ∧
       (s.claims huntId).claimer = 0 ∧
       verify proofData claimCommitment = true ∧
       s2 = { s with
               claims := upd s.claims huntId
                 { claimer := sender, claimTime := now,
                   lastWithdrawal := 0, totalWithdrawn := 0 },
               hunts := upd s.hunts huntId
                 { s.hunts huntId with status := .Claimed } }) := by
  simp only [claimTreasure]
  split_ifs <;> simp_all <;> tauto

theorem expireHunt_ok_iff (s : LedgerState) (sender now huntId : Nat)
    (s2 : LedgerState) (outs : List (Nat × Nat)) :
    expireHunt s sender now huntId = .ok (s2, outs) ↔
      ((s.hunts huntId).status = .Active ∧
       (s.hunts huntId).expiresAt ≤ now ∧
       s2 = { s with
               hunts := upd s.hunts huntId
                 { s.hunts huntId with status := .Expired } } ∧
       outs = (if 0 < getPotBalance s huntId
               then [((s.hunts huntId).hider, getPotBalance s huntId)]
               else [])) := by
  have hbal :
      getPotBalance
        { s with hunts := upd s.hunts huntId { s.hunts huntId with status := .Expired } }
        huntId = getPotBalance s huntId := by
    simp [getPotBalance, upd]
  simp only [expireHunt, hbal]
  split_ifs <;> simp_all <;> tauto

theorem withdraw_succeeds_iff (s : LedgerState) (sender now huntId : Nat) :
    succeeds (withdraw s sender now huntId) = true ↔
      ((s.hunts huntId).status = .Claimed ∧
       (s.claims huntId).claimer = sender ∧
       ((s.claims huntId).lastWithdrawal = 0 ∨
         (s.claims huntId).lastWithdrawal + WITHDRAWAL_INTERVAL ≤ now) ∧
       0 < getPotBalance s huntId) := by
  simp only [withdraw]
  split_ifs <;> simp_all [succeeds] <;> tauto

theorem createHunt_succeeds_iff (s : LedgerState)
    (sender now loc lockout duration hintPrice msgValue : Nat) :
    succeeds (createHunt s sender now loc lockout duration hintPrice msgValue) = true ↔
      (0 < msgValue ∧ MIN_HIDER_LOCKOUT ≤ lockout ∧ duration ≤ MAX_HUNT_DURATION ∧
       lockout < duration) := by
  simp only [createHunt]
  split_ifs <;> simp_all [succeeds] <;> tauto

theorem purchaseHint_succeeds_iff (s : LedgerState) (sender huntId msgValue : Nat) :
    succeeds (purchaseHint s sender huntId msgValue) = true ↔
      ((s.hunts huntId).status = .Active ∧
       (s.hunts huntId).hintPrice ≤ msgValue ∧
       s.hasPurchasedHint huntId sender = false) := by
  simp only [purchaseHint]
  split_ifs <;> simp_all [succeeds] <;> tauto

theorem claimTreasure_succeeds_iff (verify : Nat → Nat → Bool) (s : LedgerState)
    (sender now huntId proofData claimCommitment : Nat) :
    succeeds (claimTreasure verify s sender now huntId proofData claimCommitment) = true ↔
      ((s.hunts huntId).status = .Active ∧
       (s.hunts huntId).claimableAfter ≤ now ∧
       now < (s.hunts huntId).expiresAt ∧
       (s.claims huntId).claimer = 0 ∧
       verify proofData claimCommitment = true) := by
  simp only [claimTreasure]
  split_ifs <;> simp_all [succeeds] <;> tauto

theorem expireHunt_succeeds_iff (s : LedgerState) (sender now huntId : Nat) :
    succeeds (expireHunt s sender now huntId) = true ↔
      ((s.hunts huntId).status = .Active ∧ (s.hunts huntId).expiresAt ≤ now) := by
  simp only [expireHunt]
  split_ifs <;> simp_all [succeeds] <;> tauto

/-! ## Reachability invariants -/

theorem inv_init : Inv initState := by
  refine ⟨?_, ?_, ?_⟩ <;> intro id <;>
    simp [Fresh, ClaimsActiveZero, PotInv, initState, Hunt.zeroed, Claim.zeroed]

theorem floor_half_le (b : Nat) : b * WITHDRAWAL_PERCENT / 100 ≤ b := by
  have h1 : b * WITHDRAWAL_PERCENT ≤ b * 100 := by
    simp only [WITHDRAWAL_PERCENT]
    omega
  calc b * WITHDRAWAL_PERCENT / 100 ≤ b * 100 / 100 := Nat.div_le_div_right h1
    _ = b := Nat.mul_div_cancel b (by norm_num)

/-- The amount a successful `withdraw` pays out never exceeds the pot. -/
theorem withdrawAmount_le (b : Nat) :
    (if b * WITHDRAWAL_PERCENT / 100 = 0 then b else b * WITHDRAWAL_PERCENT / 100) ≤ b := by
  split_ifs with h
  · exact Nat.le_refl b
  · exact floor_half_le b

theorem inv_step (verify : Nat → Nat → Bool) (s : LedgerState) (op : Op)
    (h : Inv s) : Inv (step verify s op) := by
  obtain ⟨hF, hA, hP⟩ := h
  cases op with
  | create sender now loc lockout duration hintPrice msgValue =>
    simp only [step]
    cases hc : createHunt s sender now loc lockout duration hintPrice msgValue with
    | error e => exact ⟨hF, hA, hP⟩
    | ok p =>
      obtain ⟨s2, newId⟩ := p
      rw [createHunt_ok_iff] at hc
      obtain ⟨-, -, -, -, hs2, -⟩ := hc
      subst hs2
      refine ⟨?_, ?_, ?_⟩
      · intro id hid
        have hne : id ≠ s.huntCounter := by
          simp only at hid
          omega
        have hold := hF id (by simp only at hid ⊢; omega)
        simpa [upd, hne] using hold
      · intro id hact
        by_cases hne : id = s.huntCounter
        · subst hne
          exact (hF s.huntCounter (Nat.le_refl _)).2
        · have : (s.hunts id).status = .Active := by
            simpa [upd, hne] using hact
          exact hA id this
      · intro id
        by_cases hne : id = s.huntCounter
        · subst hne
          have hz := (hF s.huntCounter (Nat.le_refl _)).2
          simp [upd, hz, Claim.zeroed]
        · have := hP id
          simpa [upd, hne] using this
  | purchase sender huntId msgValue =>
    simp only [step]
    cases hc : purchaseHint s sender huntId msgValue with
    | error e => exact ⟨hF, hA, hP⟩
    | ok s2 =>
      rw [purchaseHint_ok_iff] at hc
      obtain ⟨-, -, -, hs2⟩ := hc
      subst hs2
      refine ⟨?_, ?_, ?_⟩
      · intro id hid
        exact hF id hid
      · intro id hact
        exact hA id hact
      · intro id
        have := hP id
        by_cases hne : id = huntId
        · rw [hne]
          have hold := hP huntId
          simp only [upd_self]
          omega
        · simpa [upd, hne] using this
  | claimOp sender now huntId proofData claimCommitment =>
    simp only [step]
    cases hc : claimTreasure verify s sender now huntId proofData claimCommitment with
    | error e => exact ⟨hF, hA, hP⟩
    | ok s2 =>
      rw [claimTreasure_ok_iff] at hc
      obtain ⟨hst, hlo, hex, -, -, hs2⟩ := hc
      have hlt : huntId < s.huntCounter := by
        by_contra hge
        have hgh := (hF huntId (by omega)).1
        rcases hgh with hgh | hgh <;>
          rw [hgh] at hex <;> simp [Hunt.zeroed] at hex
      subst hs2
      refine ⟨?_, ?_, ?_⟩
      · intro id hid
        simp only at hid
        have hne : id ≠ huntId := by omega
        have hold := hF id hid
        simpa [upd, hne] using hold
      · intro id hact
        by_cases hne : id = huntId
        · subst hne
          simp [upd] at hact
        · have : (s.hunts id).status = .Active := by
            simpa [upd, hne] using hact
          have := hA id this
          simpa [upd, hne] using this
      · intro id
        by_cases hne : id = huntId
        · subst hne
          simp [upd]
        · have := hP id
          simpa [upd, hne] using this
  | withdrawOp sender now huntId =>
    simp only [step]
    cases hc : withdraw s sender now huntId with
    | error e => exact ⟨hF, hA, hP⟩
    | ok p =>
      obtain ⟨s2, outs⟩ := p
      rw [withdraw_ok_iff] at hc
      obtain ⟨hst, -, -, hbal, hs2, -⟩ := hc
      have hlt : huntId < s.huntCounter := by
        by_contra hge
        have hgh := (hF huntId (by omega)).1
        rcases hgh with hgh | hgh <;>
          rw [hgh] at hst <;> simp [Hunt.zeroed] at hst
      subst hs2
      refine ⟨?_, ?_, ?_⟩
      · intro id hid
        simp only at hid
        have hne : id ≠ huntId := by omega
        have hold := hF id hid
        simpa [upd, hne] using hold
      · intro id hact
        simp only at hact
        by_cases hne : id = huntId
        · subst hne
          rw [hst] at hact
          simp at hact
        · have := hA id hact
          simpa [upd, hne] using this
      · intro id
        by_cases hne : id = huntId
        · rw [hne]
          have hWlt : (s.claims huntId).totalWithdrawn <
              (s.hunts huntId).initialPrize + s.totalContributions huntId := by
            by_contra hge
            simp only [getPotBalance] at hbal
            rw [if_neg (by omega)] at hbal
            omega
          have hB : getPotBalance s huntId =
              (s.hunts huntId).initialPrize + s.totalContributions huntId -
                (s.claims huntId).totalWithdrawn := by
            simp only [getPotBalance]
            rw [if_pos hWlt]
          have hle := withdrawAmount_le (getPotBalance s huntId)
          simp only [upd_self]
          omega
        · have := hP id
          simpa [upd, hne] using this
  | expireOp sender now huntId =>
    simp only [step]
    cases hc : expireHunt s sender now huntId with
    | error e => exact ⟨hF, hA, hP⟩
    | ok p =>
      obtain ⟨s2, outs⟩ := p
      rw [expireHunt_ok_iff] at hc
      obtain ⟨hst, -, hs2, -⟩ := hc
      subst hs2
      refine ⟨?_, ?_, ?_⟩
      · intro id hid
        simp only at hid
        have hold := hF id hid
        by_cases hne : id = huntId
        · subst hne
          rcases hold.1 with hz | hz
          · constructor
            · right
              simp [upd, hz]
            · exact hold.2
          · rw [hz] at hst
            simp [Hunt.zeroed] at hst
        · simpa [upd, hne] using hold
      · intro id hact
        by_cases hne : id = huntId
        · subst hne
          simp [upd] at hact
        · have : (s.hunts id).status = .Active := by
            simpa [upd, hne] using hact
          exact hA id this
      · intro id
        have := hP id
        by_cases hne : id = huntId
        · subst hne
          simpa [upd] using this
        · simpa [upd, hne] using this

theorem inv_reachable (s : LedgerState) (h : Reachable s) : Inv s := by
  induction h with
  | init => exact inv_init
  | next verify s2 op _ ih => exact inv_step verify s2 op ih

theorem reachable_run (verify : Nat → Nat → Bool) (s : LedgerState) (tr : List Op)
    (h : Reachable s) : Reachable (run verify s tr) := by
  induction tr generalizing s with
  | nil => exact h
  | cons op tr ih => exact ih (step verify s op) (Reachable.next verify s op h)

/-- A reverting `claimTreasure` transaction leaves the storage unchanged. -/
theorem step_claim_fail (verify : Nat → Nat → Bool) (s : LedgerState)
    (sender now huntId proofData claimCommitment : Nat)
    (h : succeeds (claimTreasure verify s sender now huntId proofData claimCommitment) = false) :
    step verify s (.claimOp sender now huntId proofData claimCommitment) = s := by
  simp only [step]
  cases hc : claimTreasure verify s sender now huntId proofData claimCommitment with
  | ok s2 => rw [hc] at h; simp [succeeds] at h
  | error e => rfl

/-- A reverting `withdraw` transaction leaves the storage unchanged. -/
theorem step_withdraw_fail (verify : Nat → Nat → Bool) (s : LedgerState)
    (sender now huntId : Nat)
    (h : succeeds (withdraw s sender now huntId) = false) :
    step verify s (.withdrawOp sender now huntId) = s := by
  simp only [step]
  cases hc : withdraw s sender now huntId with
  | ok p => rw [hc] at h; simp [succeeds] at h
  | error e => rfl

/-- `huntCounter` never decreases. -/
theorem huntCounter_mono (verify : Nat → Nat → Bool) (s : LedgerState) (op : Op) :
    s.huntCounter ≤ (step verify s op).huntCounter := by
  cases op with
  | create sender now loc lockout duration hintPrice msgValue =>
    simp only [step]
    cases hc : createHunt s sender now loc lockout duration hintPrice msgValue with
    | error e => exact Nat.le_refl _
    | ok p =>
      obtain ⟨s2, newId⟩ := p
      rw [createHunt_ok_iff] at hc
      obtain ⟨-, -, -, -, hs2, -⟩ := hc
      subst hs2
      exact Nat.le_succ _
  | purchase sender huntId msgValue =>
    simp only [step]
    cases hc : purchaseHint s sender huntId msgValue with
    | error e => exact Nat.le_refl _
    | ok s2 =>
      rw [purchaseHint_ok_iff] at hc
      obtain ⟨-, -, -, hs2⟩ := hc
      subst hs2
      exact Nat.le_refl _
  | claimOp sender now huntId proofData claimCommitment =>
    simp only [step]
    cases hc : claimTreasure verify s sender now huntId proofData claimCommitment with
    | error e => exact Nat.le_refl _
    | ok s2 =>
      rw [claimTreasure_ok_iff] at hc
      obtain ⟨-, -, -, -, -, hs2⟩ := hc
      subst hs2
      exact Nat.le_refl _
  | withdrawOp sender now huntId =>
    simp only [step]
    cases hc : withdraw s sender now huntId with
    | error e => exact Nat.le_refl _
    | ok p =>
      obtain ⟨s2, outs⟩ := p
      rw [withdraw_ok_iff] at hc
      obtain ⟨-, -, -, -, hs2, -⟩ := hc
      subst hs2
      exact Nat.le_refl _
  | expireOp sender now huntId =>
    simp only [step]
    cases hc : expireHunt s sender now huntId with
    | error e => exact Nat.le_refl _
    | ok p =>
      obtain ⟨s2, outs⟩ := p
      rw [expireHunt_ok_iff] at hc
      obtain ⟨-, -, hs2, -⟩ := hc
      subst hs2
      exact Nat.le_refl _

/-- The status of a registered hunt (`id < huntCounter`) that has left
`Active` never changes again: one transaction. -/
theorem terminal_step (verify : Nat → Nat → Bool) (s : LedgerState) (op : Op) (id : Nat)
    (hlt : id < s.huntCounter) (hst : (s.hunts id).status ≠ .Active) :
    ((step verify s op).hunts id).status = (s.hunts id).status := by
  cases op with
  | create sender now loc lockout duration hintPrice msgValue =>
    simp only [step]
    cases hc : createHunt s sender now loc lockout duration hintPrice msgValue with
    | error e => rfl
    | ok p =>
      obtain ⟨s2, newId⟩ := p
      rw [createHunt_ok_iff] at hc
      obtain ⟨-, -, -, -, hs2, -⟩ := hc
      subst hs2
      have hne : id ≠ s.huntCounter := by omega
      simp [upd, hne]
  | purchase sender huntId msgValue =>
    simp only [step]
    cases hc : purchaseHint s sender huntId msgValue with
    | error e => rfl
    | ok s2 =>
      rw [purchaseHint_ok_iff] at hc
      obtain ⟨-, -, -, hs2⟩ := hc
      subst hs2
      rfl
  | claimOp sender now huntId proofData claimCommitment =>
    simp only [step]
    cases hc : claimTreasure verify s sender now huntId proofData claimCommitment with
    | error e => rfl
    | ok s2 =>
      rw [claimTreasure_ok_iff] at hc
      obtain ⟨hact, -, -, -, -, hs2⟩ := hc
      subst hs2
      have hne : id ≠ huntId := by
        intro heq
        rw [heq] at hst
        exact hst hact
      simp [upd, hne]
  | withdrawOp sender now huntId =>
    simp only [step]
    cases hc : withdraw s sender now huntId with
    | error e => rfl
    | ok p =>
      obtain ⟨s2, outs⟩ := p
      rw [withdraw_ok_iff] at hc
      obtain ⟨-, -, -, -, hs2, -⟩ := hc
      subst hs2
      rfl
  | expireOp sender now huntId =>
    simp only [step]
    cases hc : expireHunt s sender now huntId with
    | error e => rfl
    | ok p =>
      obtain ⟨s2, outs⟩ := p
      rw [expireHunt_ok_iff] at hc
      obtain ⟨hact, -, hs2, -⟩ := hc
      subst hs2
      have hne : id ≠ huntId := by
        intro heq
        rw [heq] at hst
        exact hst hact
      simp [upd, hne]

/-- The status of a registered hunt that has left `Active` never changes
again: whole traces (and the hunt stays registered). -/
theorem terminal_run (verify : Nat → Nat → Bool) (tr : List Op) (s : LedgerState) (id : Nat)
    (hlt : id < s.huntCounter) (hst : (s.hunts id).status ≠ .Active) :
    ((run verify s tr).hunts id).status = (s.hunts id).status ∧
      id < (run verify s tr).huntCounter := by
  induction tr generalizing s with
  | nil => exact ⟨rfl, hlt⟩
  | cons op tr ih =>
    have hstep := terminal_step verify s op id hlt hst
    have hcnt := huntCounter_mono verify s op
    have := ih (step verify s op) (by omega) (by rw [hstep]; exact hst)
    simp only [run]
    exact ⟨this.1.trans hstep, this.2⟩

/-! ## Per-hunt isolation -/

/-- An operation addressed to one hunt id never alters the stored state of
any other hunt. -/
theorem isolation_step (verify : Nat → Nat → Bool) (s : LedgerState) (op : Op)
    (hid B : Nat) (htgt : op.targetHunt = some hid) (hne : hid ≠ B) :
    huntView (step verify s op) B = huntView s B := by
  cases op with
  | create sender now loc lockout duration hintPrice msgValue =>
    simp [Op.targetHunt] at htgt
  | purchase sender huntId msgValue =>
    simp only [Op.targetHunt, Option.some.injEq] at htgt
    subst htgt
    simp only [step]
    cases hc : purchaseHint s sender huntId msgValue with
    | error e => rfl
    | ok s2 =>
      rw [purchaseHint_ok_iff] at hc
      obtain ⟨-, -, -, hs2⟩ := hc
      subst hs2
      have hBne : B ≠ huntId := fun h => hne h.symm
      simp [huntView, upd2, upd, hBne]
  | claimOp sender now huntId proofData claimCommitment =>
    simp only [Op.targetHunt, Option.some.injEq] at htgt
    subst htgt
    simp only [step]
    cases hc : claimTreasure verify s sender now huntId proofData claimCommitment with
    | error e => rfl
    | ok s2 =>
      rw [claimTreasure_ok_iff] at hc
      obtain ⟨-, -, -, -, -, hs2⟩ := hc
      subst hs2
      have hBne : B ≠ huntId := fun h => hne h.symm
      simp [huntView, upd, hBne]
  | withdrawOp sender now huntId =>
    simp only [Op.targetHunt, Option.some.injEq] at htgt
    subst htgt
    simp only [step]
    cases hc : withdraw s sender now huntId with
    | error e => rfl
    | ok p =>
      obtain ⟨s2, outs⟩ := p
      rw [withdraw_ok_iff] at hc
      obtain ⟨-, -, -, -, hs2, -⟩ := hc
      subst hs2
      have hBne : B ≠ huntId := fun h => hne h.symm
      simp [huntView, upd, hBne]
  | expireOp sender now huntId =>
    simp only [Op.targetHunt, Option.some.injEq] at htgt
    subst htgt
    simp only [step]
    cases hc : expireHunt s sender now huntId with
    | error e => rfl
    | ok p =>
      obtain ⟨s2, outs⟩ := p
      rw [expireHunt_ok_iff] at hc
      obtain ⟨-, -, hs2, -⟩ := hc
      subst hs2
      have hBne : B ≠ huntId := fun h => hne h.symm
      simp [huntView, upd, hBne]

/-- `createHunt` touches only the fresh id `huntCounter`. -/
theorem create_frame (verify : Nat → Nat → Bool) (s : LedgerState)
    (sender now loc lockout duration hintPrice msgValue B : Nat)
    (hne : B ≠ s.huntCounter) :
    huntView (step verify s (.create sender now loc lockout duration hintPrice msgValue)) B =
      huntView s B := by
  simp only [step]
  cases hc : createHunt s sender now loc lockout duration hintPrice msgValue with
  | error e => rfl
  | ok p =>
    obtain ⟨s2, newId⟩ := p
    rw [createHunt_ok_iff] at hc
    obtain ⟨-, -, -, -, hs2, -⟩ := hc
    subst hs2
    simp [huntView, upd, hne]

/-! ## Contributions along a trace -/

/-- One transaction changes the running total exactly by `purchaseAmount`. -/
theorem totalContributions_step (verify : Nat → Nat → Bool) (s : LedgerState)
    (op : Op) (huntId : Nat) :
    (step verify s op).totalContributions huntId =
      s.totalContributions huntId + purchaseAmount s huntId op := by
  cases op with
  | create sender now loc lockout duration hintPrice msgValue =>
    simp only [step, purchaseAmount]
    cases hc : createHunt s sender now loc lockout duration hintPrice msgValue with
    | error e => rfl
    | ok p =>
      obtain ⟨s2, newId⟩ := p
      rw [createHunt_ok_iff] at hc
      obtain ⟨-, -, -, -, hs2, -⟩ := hc
      subst hs2
      rfl
  | purchase sender hid msgValue =>
    simp only [step, purchaseAmount]
    cases hc : purchaseHint s sender hid msgValue with
    | error e => simp [succeeds]
    | ok s2 =>
      rw [purchaseHint_ok_iff] at hc
      obtain ⟨-, -, -, hs2⟩ := hc
      subst hs2
      by_cases hne : hid = huntId
      · subst hne
        simp [upd, succeeds]
      · simp [upd, hne, Ne.symm hne, succeeds]
  | claimOp sender now hid proofData claimCommitment =>
    simp only [step, purchaseAmount]
    cases hc : claimTreasure verify s sender now hid proofData claimCommitment with
    | error e => rfl
    | ok s2 =>
      rw [claimTreasure_ok_iff] at hc
      obtain ⟨-, -, -, -, -, hs2⟩ := hc
      subst hs2
      rfl
  | withdrawOp sender now hid =>
    simp only [step, purchaseAmount]
    cases hc : withdraw s sender now hid with
    | error e => rfl
    | ok p =>
      obtain ⟨s2, outs⟩ := p
      rw [withdraw_ok_iff] at hc
      obtain ⟨-, -, -, -, hs2, -⟩ := hc
      subst hs2
      rfl
  | expireOp sender now hid =>
    simp only [step, purchaseAmount]
    cases hc : expireHunt s sender now hid with
    | error e => rfl
    | ok p =>
      obtain ⟨s2, outs⟩ := p
      rw [expireHunt_ok_iff] at hc
      obtain ⟨-, -, hs2, -⟩ := hc
      subst hs2
      rfl

/-- The running total along a trace is the starting total plus the sum of the
individual successful contributions. -/
theorem totalContributions_run (verify : Nat → Nat → Bool) (tr : List Op)
    (s : LedgerState) (huntId : Nat) :
    (run verify s tr).totalContributions huntId =
      s.totalContributions huntId + contribSum verify s huntId tr := by
  induction tr generalizing s with
  | nil => simp [run, contribSum]
  | cons op tr ih =>
    simp only [run, contribSum]
    rw [ih (step verify s op), totalContributions_step]
    omega

/-- Contributions and running totals are never decremented by any
transaction. -/
theorem contributions_mono (verify : Nat → Nat → Bool) (s : LedgerState) (op : Op)
    (id a : Nat) :
    s.contributions id a ≤ (step verify s op).contributions id a ∧
      s.totalContributions id ≤ (step verify s op).totalContributions id := by
  cases op with
  | create sender now loc lockout duration hintPrice msgValue =>
    simp only [step]
    cases hc : createHunt s sender now loc lockout duration hintPrice msgValue with
    | error e => exact ⟨Nat.le_refl _, Nat.le_refl _⟩
    | ok p =>
      obtain ⟨s2, newId⟩ := p
      rw [createHunt_ok_iff] at hc
      obtain ⟨-, -, -, -, hs2, -⟩ := hc
      subst hs2
      exact ⟨Nat.le_refl _, Nat.le_refl _⟩
  | purchase sender hid msgValue =>
    simp only [step]
    cases hc : purchaseHint s sender hid msgValue with
    | error e => exact ⟨Nat.le_refl _, Nat.le_refl _⟩
    | ok s2 =>
      rw [purchaseHint_ok_iff] at hc
      obtain ⟨-, -, -, hs2⟩ := hc
      subst hs2
      constructor
      · by_cases h1 : id = hid
        · subst h1
          by_cases h2 : a = sender
          · subst h2
            simp [upd2, upd]
          · simp [upd2, upd, h2]
        · simp [upd2, upd, h1]
      · by_cases h1 : id = hid
        · subst h1
          simp [upd]
        · simp [upd, h1]
  | claimOp sender now hid proofData claimCommitment =>
    simp only [step]
    cases hc : claimTreasure verify s sender now hid proofData claimCommitment with
    | error e => exact ⟨Nat.le_refl _, Nat.le_refl _⟩
    | ok s2 =>
      rw [claimTreasure_ok_iff] at hc
      obtain ⟨-, -, -, -, -, hs2⟩ := hc
      subst hs2
      exact ⟨Nat.le_refl _, Nat.le_refl _⟩
  | withdrawOp sender now hid =>
    simp only [step]
    cases hc : withdraw s sender now hid with
    | error e => exact ⟨Nat.le_refl _, Nat.le_refl _⟩
    | ok p =>
      obtain ⟨s2, outs⟩ := p
      rw [withdraw_ok_iff] at hc
      obtain ⟨-, -, -, -, hs2, -⟩ := hc
      subst hs2
      exact ⟨Nat.le_refl _, Nat.le_refl _⟩
  | expireOp sender now hid =>
    simp only [step]
    cases hc : expireHunt s sender now hid with
    | error e => exact ⟨Nat.le_refl _, Nat.le_refl _⟩
    | ok p =>
      obtain ⟨s2, outs⟩ := p
      rw [expireHunt_ok_iff] at hc
      obtain ⟨-, -, hs2, -⟩ := hc
      subst hs2
      exact ⟨Nat.le_refl _, Nat.le_refl _⟩

/-- `claimTreasure` never reads the stored `locationCommitment`: running it
on a state whose `locationCommitment` for the hunt was replaced by an
arbitrary value gives the same outcome (error for error, with the same
message; success for success, with the same state up to that replaced
field). -/
theorem claimTreasure_loc_oblivious (verify : Nat → Nat → Bool) (s : LedgerState)
    (sender now huntId proofData claimCommitment loc2 : Nat) :
    claimTreasure verify (setLoc s huntId loc2) sender now huntId proofData claimCommitment =
      Except.map (fun st => setLoc st huntId loc2)
        (claimTreasure verify s sender now huntId proofData claimCommitment) := by
  simp only [claimTreasure, setLoc, upd_self]
  split_ifs <;> simp_all [Except.map, upd_upd, upd_self]

/-! ## The claims -/

/-- C6 (counterexample): at squared distance exactly `radiusSquared`
(`latDiff = 100`, `lonDiff = 0`, `radiusSquared = 10000`) the circuit's
`DistanceCheck` outputs 0 — the boundary input is rejected, not accepted as
the claim states; the off-circuit JS helper `isWithinRadius` does accept
it. -/
theorem C6_boundary_counterexample :
    distanceSquared 100 0 0 0 = RADIUS_SQUARED ∧
    distanceCheck 100 0 0 0 RADIUS_SQUARED = false ∧
    isWithinRadius 100 0 0 0 = true :=
  ⟨by decide, by decide, by decide⟩

/-- C6 (amended): the distance constraint evaluator executed during proof
construction — the circuit's `DistanceCheck` — accepts exactly when the
squared integer Euclidean distance `(latDiff^2 + lonDiff^2)` is STRICTLY
less than `radiusSquared` (circomlib `LessThan`), so the boundary input is
rejected; the JS helper `isWithinRadius` accepts at `≤ RADIUS_SQUARED` and
the two disagree exactly on the boundary. -/
theorem C6_distance_evaluator (myLat myLon targetLat targetLon maxDistSquared : Int) :
    (distanceCheck myLat myLon targetLat targetLon maxDistSquared = true ↔
      distanceSquared myLat myLon targetLat targetLon < maxDistSquared) ∧
    (isWithinRadius myLat myLon targetLat targetLon = true ↔
      distanceSquared myLat myLon targetLat targetLon ≤ RADIUS_SQUARED) := by
  constructor
  · simp [distanceCheck, distanceSquared]
  · simp [isWithinRadius]

/-- C4: a successful `withdraw` on pot balance `B > 0` releases exactly
`floor(B * 50 / 100)`, except that when that floor is `0` the whole remaining
balance `B` is released; it adds exactly the released amount to
`totalWithdrawn` and sets `lastWithdrawal` to `now`; the division is integer
floor (never rounds up: `(B*50/100)*100 ≤ B*50`) and the released amount
never exceeds the pot. -/
theorem C4_withdraw_amount (s : LedgerState) (sender now huntId : Nat)
    (h : succeeds (withdraw s sender now huntId) = true) :
    0 < getPotBalance s huntId ∧
    (∃ s2, withdraw s sender now huntId =
      .ok (s2, [(sender,
        if getPotBalance s huntId * WITHDRAWAL_PERCENT / 100 = 0
        then getPotBalance s huntId
        else getPotBalance s huntId * WITHDRAWAL_PERCENT / 100)]) ∧
      (s2.claims huntId).totalWithdrawn = (s.claims huntId).totalWithdrawn +
        (if getPotBalance s huntId * WITHDRAWAL_PERCENT / 100 = 0
         then getPotBalance s huntId
         else getPotBalance s huntId * WITHDRAWAL_PERCENT / 100) ∧
      (s2.claims huntId).lastWithdrawal = now) ∧
    (if getPotBalance s huntId * WITHDRAWAL_PERCENT / 100 = 0
     then getPotBalance s huntId
     else getPotBalance s huntId * WITHDRAWAL_PERCENT / 100) ≤ getPotBalance s huntId ∧
    getPotBalance s huntId * WITHDRAWAL_PERCENT / 100 * 100 ≤
      getPotBalance s huntId * WITHDRAWAL_PERCENT := by
  cases hc : withdraw s sender now huntId with
  | error e => rw [hc] at h; simp [succeeds] at h
  | ok p =>
    obtain ⟨s2, outs⟩ := p
    have hc2 := hc
    rw [withdraw_ok_iff] at hc2
    obtain ⟨-, -, -, hbal, hs2, houts⟩ := hc2
    subst hs2
    subst houts
    refine ⟨hbal, Exists.intro _ ⟨rfl, ?_, ?_⟩, withdrawAmount_le _, Nat.div_mul_le_self _ _⟩
    · simp [upd_self]
    · simp [upd_self]

/-- C4 witness: on the demonstration ledger (hunt 0 claimed by identity 7,
pot 1000) the withdrawal at time 5 succeeds with a pot of 1000 and a 50%
floor amount of 500. -/
theorem C4_withdraw_amount_witness :
    succeeds (withdraw (run vTrue initState demoTrace) 7 5 0) = true ∧
    0 < getPotBalance (run vTrue initState demoTrace) 0 ∧
    getPotBalance (run vTrue initState demoTrace) 0 * WITHDRAWAL_PERCENT / 100 = 500 :=
  ⟨by decide,
   (C4_withdraw_amount (run vTrue initState demoTrace) 7 5 0 (by decide)).1,
   by decide⟩

/-- C9: `purchaseHint` succeeds iff the hunt's stored status is `Active`, the
payment covers `hintPrice`, and this identity has not yet bought a hint for
this hunt (so underpayment and repeat purchases are rejected); a success adds
exactly the payment to the buyer's contribution and to the hunt's running
total; and no transaction ever decrements a contribution or a running
total. -/
theorem C9_purchase_hint (s : LedgerState) (sender huntId msgValue : Nat) :
    (succeeds (purchaseHint s sender huntId msgValue) = true ↔
      ((s.hunts huntId).status = .Active ∧ (s.hunts huntId).hintPrice ≤ msgValue ∧
       s.hasPurchasedHint huntId sender = false)) ∧
    (∀ s2, purchaseHint s sender huntId msgValue = .ok s2 →
      s2.contributions huntId sender = s.contributions huntId sender + msgValue ∧
      s2.totalContributions huntId = s.totalContributions huntId + msgValue ∧
      s2.hasPurchasedHint huntId sender = true) ∧
    (∀ (verify : Nat → Nat → Bool) (st : LedgerState) (op : Op) (id a : Nat),
      st.contributions id a ≤ (step verify st op).contributions id a ∧
      st.totalContributions id ≤ (step verify st op).totalContributions id) := by
  refine ⟨purchaseHint_succeeds_iff s sender huntId msgValue, ?_, contributions_mono⟩
  intro s2 h
  rw [purchaseHint_ok_iff] at h
  obtain ⟨-, -, -, hs2⟩ := h
  subst hs2
  refine ⟨?_, ?_, ?_⟩ <;> simp [upd2, upd]

/-- C9 witness: with hint price 1000, paying 999 is rejected and paying 1000
is accepted. -/
theorem C9_purchase_hint_witness :
    succeeds (purchaseHint (run vTrue initState [.create 1 0 42 0 100 1000 500]) 3 0 999)
      = false ∧
    succeeds (purchaseHint (run vTrue initState [.create 1 0 42 0 100 1000 500]) 3 0 1000)
      = true :=
  ⟨by decide,
   (C9_purchase_hint (run vTrue initState [.create 1 0 42 0 100 1000 500]) 3 0 1000).1.mpr
     (by decide)⟩

/-- C10: a successful `expireHunt` changes only the hunt's status field; the
claim record, contributions, hint flags, running totals and the counter are
untouched; the refund to the creator is not recorded in `totalWithdrawn`, so
`getPotBalance` returns the same (positive) value after expiry as immediately
before, even though those funds were transferred out to the creator. -/
theorem C10_expire_frame (s : LedgerState) (sender now huntId : Nat)
    (s2 : LedgerState) (outs : List (Nat × Nat))
    (h : expireHunt s sender now huntId = .ok (s2, outs)) :
    s2.hunts huntId = { s.hunts huntId with status := .Expired } ∧
    (∀ B, B ≠ huntId → s2.hunts B = s.hunts B) ∧
    s2.claims = s.claims ∧
    s2.contributions = s.contributions ∧
    s2.hasPurchasedHint = s.hasPurchasedHint ∧
    s2.totalContributions = s.totalContributions ∧
    s2.huntCounter = s.huntCounter ∧
    getPotBalance s2 huntId = getPotBalance s huntId ∧
    (0 < getPotBalance s huntId →
      outs = [((s.hunts huntId).hider, getPotBalance s huntId)]) := by
  rw [expireHunt_ok_iff] at h
  obtain ⟨-, -, hs2, houts⟩ := h
  subst hs2
  refine ⟨by simp [upd_self], ?_, rfl, rfl, rfl, rfl, rfl, by simp [getPotBalance, upd], ?_⟩
  · intro B hB
    simp [upd, hB]
  · intro hpos
    rw [houts, if_pos hpos]

/-- C5 (counterexample): a first withdrawal executed at time 0 stores
`lastWithdrawal = 0`, which the code reads as the "never withdrawn" sentinel,
so a second withdrawal only one second later — strictly within the
86400-second interval — succeeds instead of failing. -/
theorem C5_time_zero_counterexample :
    succeeds (withdraw (run vTrue initState demoTrace) 7 0 0) = true ∧
    succeeds (withdraw (run vTrue initState (demoTrace ++ [.withdrawOp 7 0 0])) 7 1 0)
      = true ∧
    1 < 0 + WITHDRAWAL_INTERVAL :=
  ⟨by decide, by decide, by decide⟩

/-- C5 (amended): `withdraw` succeeds iff the status is `Claimed`, the caller
is the recorded claimer, the pot is positive, and either
`lastWithdrawal = 0` or `now ≥ lastWithdrawal + interval`; and after a
successful withdrawal made at a NONZERO time `t1`, a second withdrawal
strictly within the interval fails with no state change, while one at or
after the boundary with funds left succeeds.  The nonzero-time proviso is
forced by the code's use of `lastWithdrawal == 0` as the never-withdrawn
sentinel. -/
theorem C5_withdraw_cadence (s : LedgerState) (sender t1 huntId : Nat)
    (s1 : LedgerState) (outs : List (Nat × Nat))
    (h1 : withdraw s sender t1 huntId = .ok (s1, outs))
    (ht1 : 0 < t1) :
    (∀ (s0 : LedgerState) (c t : Nat),
      succeeds (withdraw s0 c t huntId) = true ↔
        ((s0.hunts huntId).status = .Claimed ∧
         (s0.claims huntId).claimer = c ∧
         ((s0.claims huntId).lastWithdrawal = 0 ∨
           (s0.claims huntId).lastWithdrawal + WITHDRAWAL_INTERVAL ≤ t) ∧
         0 < getPotBalance s0 huntId)) ∧
    (∀ (verify : Nat → Nat → Bool) (sender2 t2 : Nat),
      t2 < t1 + WITHDRAWAL_INTERVAL →
      succeeds (withdraw s1 sender2 t2 huntId) = false ∧
      step verify s1 (.withdrawOp sender2 t2 huntId) = s1) ∧
    (∀ t2, t1 + WITHDRAWAL_INTERVAL ≤ t2 → 0 < getPotBalance s1 huntId →
      succeeds (withdraw s1 sender t2 huntId) = true) := by
  have hc2 := h1
  rw [withdraw_ok_iff] at hc2
  obtain ⟨hst, hclm, -, hbal, hs1, -⟩ := hc2
  have hh : s1.hunts huntId = s.hunts huntId := by rw [hs1]
  have hlw : (s1.claims huntId).lastWithdrawal = t1 := by
    rw [hs1]
    simp [upd_self]
  have hclaimer : (s1.claims huntId).claimer = sender := by
    rw [hs1]
    simp [upd_self, hclm]
  refine ⟨fun s0 c t => withdraw_succeeds_iff s0 c t huntId, ?_, ?_⟩
  · intro verify sender2 t2 ht2
    have hfail : succeeds (withdraw s1 sender2 t2 huntId) = false := by
      cases hb : succeeds (withdraw s1 sender2 t2 huntId) with
      | false => rfl
      | true =>
        obtain ⟨-, -, hml, -⟩ := (withdraw_succeeds_iff s1 sender2 t2 huntId).mp hb
        rw [hlw] at hml
        omega
    exact ⟨hfail, step_withdraw_fail verify s1 sender2 t2 huntId hfail⟩
  · intro t2 ht2 hbal2
    rw [withdraw_succeeds_iff]
    refine ⟨by rw [hh]; exact hst, hclaimer, Or.inr (by rw [hlw]; omega), hbal2⟩

/-- C5 witness: first withdrawal at nonzero time 5; a retry at time 100
(strictly within the interval) fails, and one at 86405 = 5 + 86400
succeeds. -/
theorem C5_withdraw_cadence_witness :
    withdraw (run vTrue initState demoTrace) 7 5 0 =
      .ok (run vTrue initState (demoTrace ++ [.withdrawOp 7 5 0]), [(7, 500)]) ∧
    succeeds (withdraw (run vTrue initState (demoTrace ++ [.withdrawOp 7 5 0])) 7 100 0)
      = false ∧
    succeeds (withdraw (run vTrue initState (demoTrace ++ [.withdrawOp 7 5 0])) 7 86405 0)
      = true := by
  have h1 : withdraw (run vTrue initState demoTrace) 7 5 0 =
      .ok (run vTrue initState (demoTrace ++ [.withdrawOp 7 5 0]), [(7, 500)]) := rfl
  have hc := C5_withdraw_cadence (run vTrue initState demoTrace) 7 5 0
      (run vTrue initState (demoTrace ++ [.withdrawOp 7 5 0])) [(7, 500)] h1 (by decide)
  exact ⟨h1, (hc.2.1 vTrue 7 100 (by decide)).1, hc.2.2 86405 (by decide) (by decide)⟩

/-- C7: `createHunt` succeeds iff deposit > 0, lockout ≥ the configured
minimum, duration > lockout, and duration ≤ the configured maximum; on
success it stores an `Active` hunt with `claimableAfter = createdAt +
lockout` and `expiresAt = createdAt + duration` (hence `claimableAfter ≥
createdAt + minLockout` and `expiresAt > claimableAfter`), records the
deposit as the escrowed initial prize, and returns the current counter as
the fresh id — `0` on the fresh ledger, where the new pot equals the
deposit — bumping the counter by one; and no transaction ever decreases the
counter, so ids of successive registrations strictly increase. -/
theorem C7_register_hunt (s : LedgerState)
    (sender now loc lockout duration hintPrice msgValue : Nat) :
    (succeeds (createHunt s sender now loc lockout duration hintPrice msgValue) = true ↔
      (0 < msgValue ∧ MIN_HIDER_LOCKOUT ≤ lockout ∧ duration ≤ MAX_HUNT_DURATION ∧
       lockout < duration)) ∧
    (∀ s2 newId,
      createHunt s sender now loc lockout duration hintPrice msgValue = .ok (s2, newId) →
      newId = s.huntCounter ∧ s2.huntCounter = newId + 1 ∧
      s2.hunts newId =
        { hider := sender, locationCommitment := loc, initialPrize := msgValue,
          createdAt := now, claimableAfter := now + lockout,
          expiresAt := now + duration, hintPrice := hintPrice, status := .Active } ∧
      (s2.hunts newId).createdAt + MIN_HIDER_LOCKOUT ≤ (s2.hunts newId).claimableAfter ∧
      (s2.hunts newId).claimableAfter < (s2.hunts newId).expiresAt) ∧
    (∀ s2 newId,
      createHunt initState sender now loc lockout duration hintPrice msgValue
        = .ok (s2, newId) →
      newId = 0 ∧ getPotBalance s2 0 = msgValue) ∧
    (∀ (verify : Nat → Nat → Bool) (st : LedgerState) (op : Op),
      st.huntCounter ≤ (step verify st op).huntCounter) := by
  refine ⟨createHunt_succeeds_iff s sender now loc lockout duration hintPrice msgValue,
    ?_, ?_, huntCounter_mono⟩
  · intro s2 newId h
    rw [createHunt_ok_iff] at h
    obtain ⟨-, -, -, hdur, hs2, hnew⟩ := h
    subst hs2
    subst hnew
    refine ⟨rfl, rfl, by simp [upd_self], ?_, ?_⟩
    · simp [upd_self, MIN_HIDER_LOCKOUT]
    · simp only [upd_self]
      omega
  · intro s2 newId h
    rw [createHunt_ok_iff] at h
    obtain ⟨hmv, -, -, hdur, hs2, hnew⟩ := h
    subst hs2
    refine ⟨hnew, ?_⟩
    simp only [getPotBalance, upd, initState, Hunt.zeroed, Claim.zeroed]
    norm_num
    omega

/-- C7 witness: the spec's scenario — first registration on a fresh ledger
(`loc=42, lockout=86400, duration=1209600, hintPrice=1000,
deposit=1000000`) yields id 0, an `Active` hunt, and pot 1,000,000. -/
theorem C7_register_hunt_witness :
    succeeds (createHunt initState 1 0 42 86400 1209600 1000 1000000) = true ∧
    getPotBalance (step vTrue initState (.create 1 0 42 86400 1209600 1000 1000000)) 0
      = 1000000 ∧
    ((step vTrue initState (.create 1 0 42 86400 1209600 1000 1000000)).hunts 0).status
      = .Active := by
  have h := C7_register_hunt initState 1 0 42 86400 1209600 1000 1000000
  refine ⟨h.1.mpr (by decide), ?_, by decide⟩
  exact (h.2.2.1 (step vTrue initState (.create 1 0 42 86400 1209600 1000 1000000)) 0 rfl).2

/-- C8 (counterexample): `expireHunt` succeeds on the never-registered id 0
(its zeroed record has status `Active` and `expiresAt = 0`), marking it
`Expired`; registering a hunt afterwards resets that id to `Active` — a
transition out of `Expired`, refuting "no transition out of Claimed or
Expired ever occurs". -/
theorem C8_ghost_expiry_counterexample :
    succeeds (expireHunt initState 1 0 0) = true ∧
    ((step vTrue initState (.expireOp 1 0 0)).hunts 0).status = .Expired ∧
    ((run vTrue initState [.expireOp 1 0 0, .create 2 0 42 0 10 5 100]).hunts 0).status
      = .Active :=
  ⟨by decide, by decide, by decide⟩

/-- C8 (amended): `expireHunt` succeeds iff the stored status is `Active`
and `now ≥ expiresAt`, for any caller; on success the hunt becomes `Expired`
and the entire remaining pot is transferred to the hunt's creator;
`claimTreasure` never succeeds once `now ≥ expiresAt`, whatever the
verifier says; and no transition out of `Claimed` or `Expired` ever occurs
for a REGISTERED hunt (`id < huntCounter`).  The registration proviso is
forced by the counterexample: the zeroed record of a never-registered id has
status `Active` with `expiresAt = 0`, so `expireHunt` marks it `Expired` and
a later `createHunt` at that id resets it to `Active`. -/
theorem C8_expiry_exclusivity (s : LedgerState) (sender now huntId : Nat) :
    (succeeds (expireHunt s sender now huntId) = true ↔
      ((s.hunts huntId).status = .Active ∧ (s.hunts huntId).expiresAt ≤ now)) ∧
    (∀ s2 outs, expireHunt s sender now huntId = .ok (s2, outs) →
      (s2.hunts huntId).status = .Expired ∧
      outs = (if 0 < getPotBalance s huntId
              then [((s.hunts huntId).hider, getPotBalance s huntId)]
              else [])) ∧
    ((s.hunts huntId).expiresAt ≤ now →
      ∀ (verify : Nat → Nat → Bool) (proofData claimCommitment : Nat),
        succeeds (claimTreasure verify s sender now huntId proofData claimCommitment)
          = false) ∧
    (∀ (verify : Nat → Nat → Bool) (op : Op) (id : Nat),
      id < s.huntCounter → (s.hunts id).status ≠ .Active →
      ((step verify s op).hunts id).status = (s.hunts id).status) := by
  refine ⟨expireHunt_succeeds_iff s sender now huntId, ?_, ?_,
    fun verify op id h1 h2 => terminal_step verify s op id h1 h2⟩
  · intro s2 outs h
    rw [expireHunt_ok_iff] at h
    obtain ⟨-, -, hs2, houts⟩ := h
    subst hs2
    exact ⟨by simp [upd_self], houts⟩
  · intro hex verify proofData claimCommitment
    cases hb : succeeds (claimTreasure verify s sender now huntId proofData claimCommitment) with
    | false => rfl
    | true =>
      obtain ⟨-, -, hlt, -, -⟩ :=
        (claimTreasure_succeeds_iff verify s sender now huntId proofData claimCommitment).mp hb
      omega

/-- C8 witness: hunt 0 (duration 10) expires at time 10 for an unrelated
caller, and a claim attempt at that time fails even under the
always-accepting verifier. -/
theorem C8_expiry_exclusivity_witness :
    succeeds (expireHunt (run vTrue initState [.create 1 0 42 0 10 10 1000]) 9 10 0)
      = true ∧
    succeeds (claimTreasure vTrue (run vTrue initState [.create 1 0 42 0 10 10 1000])
      9 10 0 0 0) = false := by
  have h := C8_expiry_exclusivity (run vTrue initState [.create 1 0 42 0 10 10 1000]) 9 10 0
  exact ⟨h.1.mpr (by decide), h.2.2.1 (by decide) vTrue 0 0⟩

/-- C10 witness: expiring the 1000-wei hunt 0 at its deadline leaves
`getPotBalance` unchanged and positive. -/
theorem C10_expire_frame_witness :
    getPotBalance (run vTrue initState [.create 1 0 42 0 10 10 1000, .expireOp 9 10 0]) 0 =
      getPotBalance (run vTrue initState [.create 1 0 42 0 10 10 1000]) 0 ∧
    0 < getPotBalance (run vTrue initState [.create 1 0 42 0 10 10 1000]) 0 := by
  have h := C10_expire_frame (run vTrue initState [.create 1 0 42 0 10 10 1000]) 9 10 0
      (run vTrue initState [.create 1 0 42 0 10 10 1000, .expireOp 9 10 0]) [(1, 1000)] rfl
  exact ⟨h.2.2.2.2.2.2.2.1, by decide⟩

/-- C1: `claimTreasure` succeeds only when the hunt's status is `Active`,
`claimableAfter ≤ now < expiresAt`, the verifier accepts
`(proof, claimCommitment)` and no claim record exists yet (the code's check
is `claims[huntId].claimer == 0`, the mapping default); on success it stores
`Claim{claimer = caller, claimTime = now}` and sets the status to `Claimed`;
and from then on, along any continuation of the history, every further
`claimTreasure` on that hunt fails and leaves the ledger — in particular the
existing claim record — unchanged. -/
theorem C1_single_claim (verify : Nat → Nat → Bool) (s : LedgerState)
    (sender now huntId proofData claimCommitment : Nat) (s2 : LedgerState)
    (hs : Reachable s)
    (h : claimTreasure verify s sender now huntId proofData claimCommitment = .ok s2) :
    ((s.hunts huntId).status = .Active ∧
     (s.hunts huntId).claimableAfter ≤ now ∧
     now < (s.hunts huntId).expiresAt ∧
     (s.claims huntId).claimer = 0 ∧
     verify proofData claimCommitment = true) ∧
    s2.claims huntId =
      { claimer := sender, claimTime := now, lastWithdrawal := 0, totalWithdrawn := 0 } ∧
    (s2.hunts huntId).status = .Claimed ∧
    (∀ (verify2 verify3 : Nat → Nat → Bool) (tr : List Op)
       (sender3 now3 pf3 cc3 : Nat),
      succeeds (claimTreasure verify3 (run verify2 s2 tr) sender3 now3 huntId pf3 cc3)
        = false ∧
      step verify3 (run verify2 s2 tr) (.claimOp sender3 now3 huntId pf3 cc3)
        = run verify2 s2 tr) := by
  have hc := h
  rw [claimTreasure_ok_iff] at hc
  obtain ⟨hact, hlo, hex, hcl0, hv, hs2⟩ := hc
  have hFresh := (inv_reachable s hs).1
  have hlt : huntId < s.huntCounter := by
    by_contra hge
    have hgh := (hFresh huntId (by omega)).1
    rcases hgh with hgh | hgh <;> rw [hgh] at hex <;> simp [Hunt.zeroed] at hex
  have hcnt : s2.huntCounter = s.huntCounter := by rw [hs2]
  have hstat2 : (s2.hunts huntId).status = .Claimed := by
    rw [hs2]
    simp [upd_self]
  refine ⟨⟨hact, hlo, hex, hcl0, hv⟩, by rw [hs2]; simp [upd_self], hstat2, ?_⟩
  intro verify2 verify3 tr sender3 now3 pf3 cc3
  have hterm := terminal_run verify2 tr s2 huntId (by omega) (by rw [hstat2]; decide)
  have hstat3 : ((run verify2 s2 tr).hunts huntId).status = .Claimed := by
    rw [hterm.1, hstat2]
  have hfail :
      succeeds (claimTreasure verify3 (run verify2 s2 tr) sender3 now3 huntId pf3 cc3)
        = false := by
    cases hb :
        succeeds (claimTreasure verify3 (run verify2 s2 tr) sender3 now3 huntId pf3 cc3) with
    | false => rfl
    | true =>
      obtain ⟨ha, -, -, -, -⟩ :=
        (claimTreasure_succeeds_iff verify3 (run verify2 s2 tr) sender3 now3 huntId
          pf3 cc3).mp hb
      rw [hstat3] at ha
      exact HuntStatus.noConfusion ha
  exact ⟨hfail, step_claim_fail verify3 (run verify2 s2 tr) sender3 now3 huntId pf3 cc3 hfail⟩

/-- C1 witness: identity 7 claims hunt 0 at time 0; the stored claim record
is exactly (7, 0, 0, 0), the status is `Claimed`, and a later claim attempt
by identity 9 fails. -/
theorem C1_single_claim_witness :
    (run vTrue initState demoTrace).claims 0 =
      { claimer := 7, claimTime := 0, lastWithdrawal := 0, totalWithdrawn := 0 } ∧
    ((run vTrue initState demoTrace).hunts 0).status = .Claimed ∧
    succeeds (claimTreasure vTrue (run vTrue initState demoTrace) 9 1 0 0 0) = false := by
  have h := C1_single_claim vTrue (run vTrue initState [.create 1 0 42 0 10 10 1000])
      7 0 0 0 0 (run vTrue initState demoTrace)
      (reachable_run vTrue initState [.create 1 0 42 0 10 10 1000] Reachable.init) rfl
  exact ⟨h.2.1, h.2.2.1, (h.2.2.2 vTrue vTrue [] 9 1 0 0).1⟩

/-- C2: `claimTreasure` imposes no relation between the submitted
`claimCommitment`, the hunt's stored `locationCommitment` and the calling
identity: in any reachable state, whenever the status and time preconditions
hold and the verifier — an oracle parameter — accepts
`(proof, claimCommitment)`, the call succeeds, for every caller and every
accepted pair; and on any state whatsoever, replacing the stored
`locationCommitment` by an arbitrary value changes the outcome only by that
same replacement (two-run formulation). -/
theorem C2_no_binding_check (verify : Nat → Nat → Bool) (s : LedgerState)
    (sender now huntId proofData claimCommitment : Nat)
    (hs : Reachable s)
    (hact : (s.hunts huntId).status = .Active)
    (hlo : (s.hunts huntId).claimableAfter ≤ now)
    (hex : now < (s.hunts huntId).expiresAt)
    (hv : verify proofData claimCommitment = true) :
    succeeds (claimTreasure verify s sender now huntId proofData claimCommitment) = true ∧
    (∀ (s3 : LedgerState) (loc3 : Nat),
      claimTreasure verify (setLoc s3 huntId loc3) sender now huntId proofData
          claimCommitment =
        Except.map (fun st => setLoc st huntId loc3)
          (claimTreasure verify s3 sender now huntId proofData claimCommitment)) := by
  have hcz := (inv_reachable s hs).2.1 huntId hact
  refine ⟨?_, fun s3 loc3 =>
    claimTreasure_loc_oblivious verify s3 sender now huntId proofData claimCommitment loc3⟩
  rw [claimTreasure_succeeds_iff]
  exact ⟨hact, hlo, hex, by rw [hcz]; rfl, hv⟩

/-- C2 witness: in the reachable state with hunt 0 active, identity 7's call
with an arbitrary commitment value 12345 accepted by the mock verifier
succeeds — no commitment or identity cross-check interferes. -/
theorem C2_no_binding_check_witness :
    succeeds (claimTreasure vTrue (run vTrue initState [.create 1 0 42 0 10 10 1000])
      7 0 0 0 12345) = true :=
  (C2_no_binding_check vTrue (run vTrue initState [.create 1 0 42 0 10 10 1000])
    7 0 0 0 12345
    (reachable_run vTrue initState [.create 1 0 42 0 10 10 1000] Reachable.init)
    (by decide) (by decide) (by decide) rfl).1

/-- C3: in every reachable ledger state (any history from the fresh ledger,
under any verifier behaviour) and for every hunt id, `getPotBalance` equals
`initialPrize` plus the sum of that hunt's individual successful
contributions along the history minus that hunt's `totalWithdrawn`, and that
value is never negative (both stated over `ℤ`); holding at every state of
every history, the equation is preserved by every withdrawal and every hint
purchase; and an operation addressed to one hunt never alters the stored
state (hunt record, claim record, contributions, hint flags, running total)
of any other hunt, `createHunt` touching only its fresh id. -/
theorem C3_pot_conservation (verify : Nat → Nat → Bool) (tr : List Op) (huntId : Nat) :
    ((getPotBalance (run verify initState tr) huntId : Int) =
       (((run verify initState tr).hunts huntId).initialPrize : Int) +
         (contribSum verify initState huntId tr : Int) -
         (((run verify initState tr).claims huntId).totalWithdrawn : Int) ∧
     (0 : Int) ≤ (((run verify initState tr).hunts huntId).initialPrize : Int) +
         (contribSum verify initState huntId tr : Int) -
         (((run verify initState tr).claims huntId).totalWithdrawn : Int)) ∧
    (∀ (verify2 : Nat → Nat → Bool) (st : LedgerState) (op : Op) (hid B : Nat),
      op.targetHunt = some hid → hid ≠ B →
      huntView (step verify2 st op) B = huntView st B) ∧
    (∀ (verify2 : Nat → Nat → Bool) (st : LedgerState)
       (sender now loc lockout duration hintPrice msgValue B : Nat),
      B ≠ st.huntCounter →
      huntView
        (step verify2 st (.create sender now loc lockout duration hintPrice msgValue)) B
        = huntView st B) := by
  have hreach : Reachable (run verify initState tr) :=
    reachable_run verify initState tr Reachable.init
  have hpot := (inv_reachable _ hreach).2.2 huntId
  have htc2 : (run verify initState tr).totalContributions huntId =
      contribSum verify initState huntId tr := by
    rw [totalContributions_run verify tr initState huntId]
    simp [initState]
  rw [htc2] at hpot
  refine ⟨⟨?_, ?_⟩,
    fun verify2 st op hid B h1 h2 => isolation_step verify2 st op hid B h1 h2,
    fun verify2 st sender now loc lockout duration hintPrice msgValue B hB =>
      create_frame verify2 st sender now loc lockout duration hintPrice msgValue B hB⟩
  · simp only [getPotBalance]
    rw [htc2]
    split_ifs with hlt <;> omega
  · omega

/-- C3 witness: after a registration (prize 1000) and one hint purchase
(payment 10) the pot of hunt 0 satisfies the conservation equation, and a
purchase addressed to hunt 0 leaves hunt 1's stored state untouched. -/
theorem C3_pot_conservation_witness :
    (getPotBalance (run vTrue initState c3trace) 0 : Int) =
      (((run vTrue initState c3trace).hunts 0).initialPrize : Int) +
        (contribSum vTrue initState 0 c3trace : Int) -
        (((run vTrue initState c3trace).claims 0).totalWithdrawn : Int) ∧
    huntView (step vTrue (run vTrue initState c3trace) (.purchase 4 0 10)) 1 =
      huntView (run vTrue initState c3trace) 1 := by
  refine ⟨(C3_pot_conservation vTrue c3trace 0).1.1, ?_⟩
  exact (C3_pot_conservation vTrue c3trace 0).2.1 vTrue (run vTrue initState c3trace)
    (.purchase 4 0 10) 0 1 rfl (by decide)

end SearchTogether

